import Mathlib

/-!
Verification of the timed action sequencer and publish-latch loop of
`create3_examples_py/dance/dance_choreograph.py`.

The Python module is embedded shallowly:

* times are rationals, standing for the exact real number of seconds obtained
  from `rclpy` time differences (`nanoseconds / 1e9`);
* `Move`, `Lights`, `FinishedDance` become a sum type `DanceAction`.  A `Move`
  value stores the forward speed and the angular speed as kept by the object
  after `Move.__init__` ran (the degrees-to-radians conversion happens once,
  at construction, and no property below depends on the numeric conversion);
* `DanceChoreographer` is a record of the three attributes the class mutates
  (`dance_sequence`, `action_index`, `start_time`); `start_time` is an
  `Option` because the attribute does not exist before `start_dance` runs,
  and `get_next_actions` called in that situation raises (`none` result);
* `DanceCommandPublisher.timer_callback` becomes a state-transition function
  returning the new state together with a `TickResult`: what was published
  (if anything), the log events emitted, and the actions consumed this tick.
  The `lightring.header.stamp = current_time` line mutates, through the
  Python alias, the object stored in `self.last_lightring`; the embedding
  mirrors this by storing the restamped light command back into the latch.
-/

namespace Create3Dance

/-- An RGB color, mirroring `irobot_create_msgs.msg.LedColor`
(each channel an 8-bit intensity). -/
structure LedColor where
  red : Nat
  green : Nat
  blue : Nat
deriving DecidableEq

/-- The color presets built by `ColorPalette.__init__`. -/
def ColorPalette.red : LedColor := ⟨255, 0, 0⟩

/-- `ColorPalette.green`. -/
def ColorPalette.green : LedColor := ⟨0, 255, 0⟩

/-- `ColorPalette.blue`. -/
def ColorPalette.blue : LedColor := ⟨0, 0, 255⟩

/-- `ColorPalette.white`. -/
def ColorPalette.white : LedColor := ⟨255, 255, 255⟩

/-- The dance actions: the closed set of classes dispatched on in
`timer_callback` (`Move`, `Lights`, anything else = `FinishedDance`). -/
inductive DanceAction where
  /-- A `Move` object after construction: forward speed `x` (m/s) and the
  stored angular speed `theta` (rad/s, converted from deg/s at construction). -/
  | move (x : ℚ) (theta : ℚ)
  /-- A `Lights` object: the led color list exactly as passed in. -/
  | lights (led_colors : List LedColor)
  /-- A `FinishedDance` object (no payload). -/
  | finishedDance
deriving DecidableEq

/-- `Lights.__init__`: stores the given color list unchanged.  The source
performs no validation of any kind (in particular no length check). -/
def Lights.init (led_colors : List LedColor) : DanceAction :=
  DanceAction.lights led_colors

/-- The mutable state of a `DanceChoreographer` object. -/
structure DanceChoreographer where
  dance_sequence : List (ℚ × DanceAction)
  action_index : Nat
  start_time : Option ℚ
deriving DecidableEq

/-- `DanceChoreographer.__init__`: stores the sequence as given (no
validation of offsets) and sets `action_index` to 0; `start_time` is not yet
an attribute of the object (`none`). -/
def DanceChoreographer.init (dance_sequence : List (ℚ × DanceAction)) :
    DanceChoreographer :=
  { dance_sequence := dance_sequence, action_index := 0, start_time := none }

/-- `DanceChoreographer.start_dance`: records the start time and resets the
cursor; the sequence itself is untouched. -/
def DanceChoreographer.start_dance (c : DanceChoreographer) (time : ℚ) :
    DanceChoreographer :=
  { c with start_time := some time, action_index := 0 }

/-- The `while` loop of `get_next_actions`, acting on the part of the
sequence from the cursor on: as long as `elapsed >= offset` of the next
entry, append its action and step the cursor.  Returns the collected actions
and the number of entries consumed. -/
def collectDue (elapsed : ℚ) : List (ℚ × DanceAction) → List DanceAction × Nat
  | [] => ([], 0)
  | p :: rest =>
    if p.1 ≤ elapsed then
      let r := collectDue elapsed rest
      (p.2 :: r.1, r.2 + 1)
    else ([], 0)

/-- `DanceChoreographer.get_next_actions`: computes the elapsed time since
`start_time` and drains every consecutive due entry from the cursor on.
Returns `none` when `start_dance` was never called (the Python code would
raise `AttributeError` reading `self.start_time`). -/
def DanceChoreographer.get_next_actions (c : DanceChoreographer) (time : ℚ) :
    Option (List DanceAction × DanceChoreographer) :=
  match c.start_time with
  | none => none
  | some st =>
    let r := collectDue (time - st) (c.dance_sequence.drop c.action_index)
    some (r.1, { c with action_index := c.action_index + r.2 })

/-- Repeated `get_next_actions` calls: returns the list of per-call outputs
and the final choreographer state.  A `none` (call before `start_dance`)
aborts the run, mirroring the uncaught Python exception. -/
def runAdvance (c : DanceChoreographer) :
    List ℚ → List (List DanceAction) × DanceChoreographer
  | [] => ([], c)
  | t :: ts =>
    match c.get_next_actions t with
    | none => ([], c)
    | some (acts, c') =>
      let r := runAdvance c' ts
      (acts :: r.1, r.2)

/-- A `geometry_msgs/Twist` restricted to the two fields the source ever
sets; all other fields stay at their zero defaults. -/
structure Twist where
  linear_x : ℚ
  angular_z : ℚ
deriving DecidableEq

/-- A freshly constructed `Twist()`: all fields zero. -/
def Twist.new : Twist := ⟨0, 0⟩

/-- An `irobot_create_msgs/LightringLeds` message: override flag, the 6 led
colors and the header stamp (seconds). -/
structure LightringLeds where
  override_system : Bool
  leds : List LedColor
  stamp : ℚ
deriving DecidableEq

/-- A freshly constructed `LightringLeds()`: override off, six black leds,
zero stamp. -/
def LightringLeds.new : LightringLeds :=
  { override_system := false, leds := List.replicate 6 ⟨0, 0, 0⟩, stamp := 0 }

/-- The log events `timer_callback` can emit (payloads of the log strings
are omitted; only the identity of the message matters here). -/
inductive Event where
  /-- `'Subscribers connected, start dance at time …'` -/
  | subscribersConnected
  /-- `'Waiting for publishers to connect to subscribers'` -/
  | waiting
  /-- `'Time … New move action: …'` -/
  | newMove
  /-- `'Time … New lights action, first led …'` -/
  | newLights
  /-- `'Time … Finished Dance Sequence'` -/
  | finishedDanceSequence
deriving DecidableEq

/-- The mutable state of a `DanceCommandPublisher` node. -/
structure DanceCommandPublisher where
  dance_choreographer : DanceChoreographer
  last_twist : Twist
  last_lightring : LightringLeds
  ready : Bool
  last_wait_subscriber_printout : Option ℚ
deriving DecidableEq

/-- `DanceCommandPublisher.__init__`: default-constructed latches (with the
light override explicitly set to `False`), not ready, no wait printout yet. -/
def DanceCommandPublisher.init (c : DanceChoreographer) : DanceCommandPublisher :=
  { dance_choreographer := c
    last_twist := Twist.new
    last_lightring := { LightringLeds.new with override_system := false }
    ready := false
    last_wait_subscriber_printout := none }

/-- The observable outcome of one `timer_callback` invocation:
either two messages were published (together with the consumed actions and
the log events), or the tick returned early without publishing, or the call
raised (`get_next_actions` before `start_dance`). -/
inductive TickResult where
  | published (twist : Twist) (lightring : LightringLeds)
      (events : List Event) (fired : List DanceAction)
  | silent (events : List Event)
  | error
deriving DecidableEq

/-- The actions consumed by a tick (empty for non-publishing ticks). -/
def TickResult.fired : TickResult → List DanceAction
  | .published _ _ _ f => f
  | .silent _ => []
  | .error => []

/-- The log events of a tick. -/
def TickResult.events : TickResult → List Event
  | .published _ _ es _ => es
  | .silent es => es
  | .error => []

/-- One branch of the `for next_action in next_actions` loop body:
given the current local `twist` and `lightring`, produce the updated pair and
the log event.  `Move` builds a fresh `Twist` with the action's speeds;
`Lights` builds a fresh `LightringLeds` with override on and the action's
colors; anything else (`FinishedDance`) resets both to fresh neutral
messages. -/
def applyAction (tw : Twist) (lr : LightringLeds) :
    DanceAction → Twist × LightringLeds × Event
  | .move x theta => ({ linear_x := x, angular_z := theta }, lr, .newMove)
  | .lights cs =>
      (tw, { LightringLeds.new with override_system := true, leds := cs },
       .newLights)
  | .finishedDance =>
      ({ linear_x := 0, angular_z := 0 },
       { LightringLeds.new with override_system := false },
       .finishedDanceSequence)

/-- The whole `for` loop: fold the consumed actions in order over the local
`twist`/`lightring` (which start at the latches), collecting the events.
The source keeps `self.last_twist` / `self.last_lightring` equal to the
local variables throughout, so the final pair is also the new latch pair. -/
def foldActions (tw : Twist) (lr : LightringLeds) :
    List DanceAction → Twist × LightringLeds × List Event
  | [] => (tw, lr, [])
  | a :: rest =>
    let s := applyAction tw lr a
    let r := foldActions s.1 s.2.1 rest
    (r.1, r.2.1, s.2.2 :: r.2.2)

/-- The tail of `timer_callback` reached once ready (or on the very tick that
became ready): consume the due actions, fold them into the latches, restamp
the light command with the current time (this also restamps the latched
object, through the Python alias) and publish both messages. -/
def runReady (s : DanceCommandPublisher) (t : ℚ) (pre : List Event) :
    DanceCommandPublisher × TickResult :=
  match s.dance_choreographer.get_next_actions t with
  | none => (s, .error)
  | some (acts, chor') =>
    let f := foldActions s.last_twist s.last_lightring acts
    let lr := { f.2.1 with stamp := t }
    ({ s with dance_choreographer := chor', last_twist := f.1,
              last_lightring := lr },
     .published f.1 lr (pre ++ f.2.2) acts)

/-- The `elif` condition of the waiting branch: print when there was no
previous printout, or when more than 5 seconds passed since it. -/
def waitLogDue (last : Option ℚ) (t : ℚ) : Bool :=
  match last with
  | none => true
  | some w => decide (5 < t - w)

/-- `DanceCommandPublisher.timer_callback` as a state transition at clock
time `current_time`, with the two subscription counts read this tick.
While not ready: if the velocity channel has a subscriber (the light channel
check `>= 0` is vacuous) the node logs, becomes ready, starts the dance at
the current time and falls through to the publish path; otherwise it returns
early, logging the rate-limited waiting message. -/
def DanceCommandPublisher.timer_callback (s : DanceCommandPublisher)
    (current_time : ℚ) (velSubs lightSubs : Nat) :
    DanceCommandPublisher × TickResult :=
  if s.ready = true then
    runReady s current_time []
  else if velSubs > 0 ∧ lightSubs ≥ 0 then
    runReady
      { s with ready := true,
               dance_choreographer :=
                 s.dance_choreographer.start_dance current_time }
      current_time [.subscribersConnected]
  else if waitLogDue s.last_wait_subscriber_printout current_time then
    ({ s with last_wait_subscriber_printout := some current_time },
     .silent [.waiting])
  else
    (s, .silent [])

/-- A sequence of timer ticks: each input is `(time, velocity subscriber
count, light subscriber count)`.  Returns the final state and the trace of
`(time, result)` pairs. -/
def runTicks (s : DanceCommandPublisher) :
    List (ℚ × Nat × Nat) → DanceCommandPublisher × List (ℚ × TickResult)
  | [] => (s, [])
  | (t, v, l) :: rest =>
    let r := s.timer_callback t v l
    let rr := runTicks r.1 rest
    (rr.1, (t, r.2) :: rr.2)

/-- The times of the trace entries that logged the waiting message. -/
def waitTimes (trace : List (ℚ × TickResult)) : List ℚ :=
  (trace.filter fun e => decide (Event.waiting ∈ e.2.events)).map Prod.fst

/-- A script entry is due once its offset is at most the elapsed time. -/
def dueBy (e : ℚ) (p : ℚ × DanceAction) : Bool :=
  decide (p.1 ≤ e)

/-- The offsets of a script are non-decreasing (the Script invariant of the
data model). -/
def OffsetsSorted (seq : List (ℚ × DanceAction)) : Prop :=
  seq.Pairwise fun p q => p.1 ≤ q.1

instance (seq : List (ℚ × DanceAction)) : Decidable (OffsetsSorted seq) := by
  unfold OffsetsSorted; infer_instance

/-- The while loop of `get_next_actions` consumes exactly the longest prefix
of due entries. -/
theorem collectDue_eq_takeWhile (e : ℚ) (l : List (ℚ × DanceAction)) :
    collectDue e l
      = ((l.takeWhile (dueBy e)).map Prod.snd, (l.takeWhile (dueBy e)).length) := by
  induction l with
  | nil => rfl
  | cons p rest ih =>
    by_cases h : p.1 ≤ e
    · simp [collectDue, dueBy, List.takeWhile_cons, h, ih]
    · simp [collectDue, dueBy, List.takeWhile_cons, h]

/-- Dropping a longest due prefix leaves a list whose head (if any) has an
offset beyond `e₁`, so a later drain at any elapsed time `e₂ ≤ e₁` consumes
nothing. -/
theorem collectDue_dropWhile_le (e₂ e₁ : ℚ) (he : e₂ ≤ e₁)
    (l : List (ℚ × DanceAction)) :
    collectDue e₂ (l.dropWhile (dueBy e₁)) = ([], 0) := by
  induction l with
  | nil => rfl
  | cons p rest ih =>
    by_cases h : p.1 ≤ e₁
    · simpa [dueBy, List.dropWhile_cons, h] using ih
    · have h2 : ¬ p.1 ≤ e₂ := fun hc => h (le_trans hc he)
      simp [collectDue, dueBy, List.dropWhile_cons, h, h2]

/-- Dropping as many elements as the `takeWhile` prefix is the same as
`dropWhile`. -/
theorem drop_length_takeWhile {α : Type} (p : α → Bool) (l : List α) :
    l.drop (l.takeWhile p).length = l.dropWhile p := by
  nth_rewrite 2 [← @List.takeWhile_append_dropWhile _ p l]
  exact List.drop_left _ _

/-- Draining up to elapsed time `e` and then further up to `e' ≥ e` reaches
exactly the entries due by `e'`.  (This is the greedy loop's telescoping
property; it holds for arbitrary scripts.) -/
theorem takeWhile_due_glue (e e' : ℚ) (he : e ≤ e') :
    ∀ l : List (ℚ × DanceAction),
      l.takeWhile (dueBy e) ++ (l.dropWhile (dueBy e)).takeWhile (dueBy e')
        = l.takeWhile (dueBy e') := by
  intro l
  induction l with
  | nil => rfl
  | cons p rest ih =>
    by_cases h : p.1 ≤ e
    · simp [dueBy, List.takeWhile_cons, List.dropWhile_cons, h, le_trans h he, ih]
    · simp [dueBy, List.takeWhile_cons, List.dropWhile_cons, h]

/-- On a script with non-decreasing offsets, the longest due prefix contains
every due entry. -/
theorem takeWhile_due_eq_filter (e : ℚ) :
    ∀ l : List (ℚ × DanceAction), OffsetsSorted l →
      l.takeWhile (dueBy e) = l.filter (dueBy e) := by
  intro l
  induction l with
  | nil => intro _; rfl
  | cons p rest ih =>
    intro hs
    rw [OffsetsSorted, List.pairwise_cons] at hs
    by_cases h : p.1 ≤ e
    · simp [dueBy, List.takeWhile_cons, List.filter_cons, h, ih hs.2]
    · simp only [dueBy, List.takeWhile_cons, List.filter_cons, h]
      simp only [decide_eq_true_eq, h, if_false]
      symm
      rw [List.filter_eq_nil_iff]
      intro q hq
      have hpq := hs.1 q hq
      simp only [dueBy, decide_eq_true_eq]
      intro hqe
      exact h (le_trans hpq hqe)

/-- The head of a strictly increasing list is at most its last element. -/
theorem chain'_head_le_getLast :
    ∀ (ts : List ℚ) (t T : ℚ), (t :: ts).Chain' (· < ·) →
      (t :: ts).getLast? = some T → t ≤ T := by
  intro ts
  induction ts with
  | nil =>
    intro t T _ hT
    simp only [List.getLast?_singleton, Option.some.injEq] at hT
    exact le_of_eq hT
  | cons u ts ih =>
    intro t T hc hT
    rw [List.getLast?_cons_cons] at hT
    have h1 : t < u := (List.chain'_cons.mp hc).1
    exact le_of_lt (lt_of_lt_of_le h1 (ih u T (List.chain'_cons.mp hc).2 hT))

/-- Characterization of a whole sequence of `get_next_actions` calls at
strictly increasing times with last time `T`, started at `st`, from cursor
`i`: the concatenated output is the longest prefix of the remaining script
due by `T - st`, and the final cursor has advanced past exactly that
prefix. -/
theorem runAdvance_spec (ts : List ℚ) :
    ∀ (seq : List (ℚ × DanceAction)) (i : Nat) (st T : ℚ),
      ts.Chain' (· < ·) → ts.getLast? = some T →
      (runAdvance ⟨seq, i, some st⟩ ts).1.flatten
          = ((seq.drop i).takeWhile (dueBy (T - st))).map Prod.snd
        ∧ (runAdvance ⟨seq, i, some st⟩ ts).2
          = ⟨seq, i + ((seq.drop i).takeWhile (dueBy (T - st))).length, some st⟩ := by
  induction ts with
  | nil => intro seq i st T _ hT; simp at hT
  | cons t ts ih =>
    intro seq i st T hc hT
    have hstep :
        runAdvance ⟨seq, i, some st⟩ (t :: ts)
          = (((seq.drop i).takeWhile (dueBy (t - st))).map Prod.snd
                :: (runAdvance ⟨seq, i + ((seq.drop i).takeWhile (dueBy (t - st))).length,
                      some st⟩ ts).1,
             (runAdvance ⟨seq, i + ((seq.drop i).takeWhile (dueBy (t - st))).length,
                some st⟩ ts).2) := by
      simp [runAdvance, DanceChoreographer.get_next_actions, collectDue_eq_takeWhile]
    cases ts with
    | nil =>
      have hTt : T = t := by
        simp only [List.getLast?_singleton, Option.some.injEq] at hT
        exact hT.symm
      subst hTt
      rw [hstep]
      simp [runAdvance]
    | cons t₂ ts' =>
      rw [List.getLast?_cons_cons] at hT
      have hc1 : t < t₂ := (List.chain'_cons.mp hc).1
      have hc2 : (t₂ :: ts').Chain' (· < ·) := (List.chain'_cons.mp hc).2
      have htT : t ≤ T := le_of_lt (lt_of_lt_of_le hc1 (chain'_head_le_getLast ts' t₂ T hc2 hT))
      have hee : t - st ≤ T - st := by linarith
      have hdrop :
          seq.drop (i + ((seq.drop i).takeWhile (dueBy (t - st))).length)
            = (seq.drop i).dropWhile (dueBy (t - st)) := by
        rw [← List.drop_drop, drop_length_takeWhile]
      obtain ⟨ih1, ih2⟩ :=
        ih seq (i + ((seq.drop i).takeWhile (dueBy (t - st))).length) st T hc2 hT
      rw [hdrop] at ih1 ih2
      have hglue := takeWhile_due_glue (t - st) (T - st) hee (seq.drop i)
      constructor
      · rw [hstep]
        simp only [List.flatten_cons, ih1, ← List.map_append, hglue]
      · rw [hstep]
        simp only [ih2, DanceChoreographer.mk.injEq, and_true, true_and]
        have hlen : (((seq.drop i).takeWhile (dueBy (t - st))).length
              + (((seq.drop i).dropWhile (dueBy (t - st))).takeWhile (dueBy (T - st))).length)
            = ((seq.drop i).takeWhile (dueBy (T - st))).length := by
          rw [← List.length_append, hglue]
        omega

/-- **C1.** For every script with non-decreasing offsets and every sequence
of query times strictly increasing from the start time (with last query time
`T`), the concatenation of the outputs of the successive `get_next_actions`
calls is exactly the sublist of script actions whose offset has elapsed by
`T`, in original script order.  Hence each due action is returned by exactly
one call, is never re-emitted once consumed, and the actions of each call
appear in script (non-decreasing offset) order. -/
theorem C1_exactly_once_in_order (seq : List (ℚ × DanceAction)) (t0 : ℚ)
    (ts : List ℚ) (T : ℚ)
    (hsorted : OffsetsSorted seq)
    (hchain : (t0 :: ts).Chain' (· < ·))
    (hT : ts.getLast? = some T) :
    (runAdvance ((DanceChoreographer.init seq).start_dance t0) ts).1.flatten
      = (seq.filter (dueBy (T - t0))).map Prod.snd := by
  have hstart : (DanceChoreographer.init seq).start_dance t0
      = ⟨seq, 0, some t0⟩ := rfl
  rw [hstart]
  obtain ⟨h1, _⟩ := runAdvance_spec ts seq 0 t0 T hchain.tail hT
  rw [h1, List.drop_zero, takeWhile_due_eq_filter (T - t0) seq hsorted]

/-- Witness for C1: a three-action script queried at times 1 and 3 after a
start at time 0 emits every action exactly once, in script order. -/
theorem C1_witness :
    OffsetsSorted [((0 : ℚ), DanceAction.move 1 0),
        (1, DanceAction.lights [ColorPalette.red]), (2, DanceAction.finishedDance)]
      ∧ List.Chain' (· < ·) [(0 : ℚ), 1, 3]
      ∧ ([(1 : ℚ), 3]).getLast? = some 3
      ∧ (runAdvance ((DanceChoreographer.init [((0 : ℚ), DanceAction.move 1 0),
            (1, DanceAction.lights [ColorPalette.red]),
            (2, DanceAction.finishedDance)]).start_dance 0) [1, 3]).1.flatten
          = (([((0 : ℚ), DanceAction.move 1 0),
              (1, DanceAction.lights [ColorPalette.red]),
              (2, DanceAction.finishedDance)]).filter (dueBy (3 - 0))).map Prod.snd :=
  ⟨by decide, by norm_num [List.chain'_cons], by decide,
   C1_exactly_once_in_order _ _ _ _ (by decide) (by norm_num [List.chain'_cons])
     (by decide)⟩

/-- **C7.** Calling `get_next_actions` twice at the same time `t` (script
offsets non-decreasing, cursor anywhere) returns the full set of
not-yet-consumed actions with offset at most `t − start_time` on the first
call and the empty list on the second call, the second call also leaving the
state unchanged. -/
theorem C7_advance_idempotent (seq : List (ℚ × DanceAction)) (i : Nat)
    (st t : ℚ) (hsorted : OffsetsSorted seq) :
    ∃ c' : DanceChoreographer,
      (⟨seq, i, some st⟩ : DanceChoreographer).get_next_actions t
          = some ((((seq.drop i).filter (dueBy (t - st))).map Prod.snd), c')
        ∧ c'.get_next_actions t = some ([], c') := by
  have hsorted' : OffsetsSorted (seq.drop i) :=
    List.Pairwise.sublist (List.drop_sublist i seq) hsorted
  refine ⟨⟨seq, i + ((seq.drop i).takeWhile (dueBy (t - st))).length, some st⟩, ?_, ?_⟩
  · simp [DanceChoreographer.get_next_actions, collectDue_eq_takeWhile,
      takeWhile_due_eq_filter (t - st) (seq.drop i) hsorted']
  · have hdrop : seq.drop (i + ((seq.drop i).takeWhile (dueBy (t - st))).length)
        = (seq.drop i).dropWhile (dueBy (t - st)) := by
      rw [← List.drop_drop, drop_length_takeWhile]
    simp [DanceChoreographer.get_next_actions, hdrop,
      collectDue_dropWhile_le (t - st) (t - st) le_rfl]

/-- Witness for C7 at a concrete script, cursor 0, queried twice at time 1. -/
theorem C7_witness :
    OffsetsSorted [((0 : ℚ), DanceAction.move 1 0), (2, DanceAction.finishedDance)]
      ∧ ∃ c' : DanceChoreographer,
        (⟨[((0 : ℚ), DanceAction.move 1 0), (2, DanceAction.finishedDance)], 0,
            some 0⟩ : DanceChoreographer).get_next_actions 1
            = some (((([((0 : ℚ), DanceAction.move 1 0),
                (2, DanceAction.finishedDance)]).drop 0).filter
                  (dueBy (1 - 0))).map Prod.snd, c')
          ∧ c'.get_next_actions 1 = some ([], c') :=
  ⟨by decide, C7_advance_idempotent _ 0 0 1 (by decide)⟩

/-- **C8.** On a script with non-decreasing, non-negative offsets, calling
`get_next_actions` at time `t0` immediately after `start_dance t0` returns
exactly the actions whose offset is 0 (and moves the cursor past them). -/
theorem C8_zero_offset_fire (seq : List (ℚ × DanceAction)) (t0 : ℚ)
    (hsorted : OffsetsSorted seq) (hnonneg : ∀ p ∈ seq, 0 ≤ p.1) :
    ((DanceChoreographer.init seq).start_dance t0).get_next_actions t0
      = some ((seq.filter fun p => decide (p.1 = 0)).map Prod.snd,
          ⟨seq, (seq.filter fun p => decide (p.1 = 0)).length, some t0⟩) := by
  have hfe : seq.filter (dueBy 0) = seq.filter fun p => decide (p.1 = 0) := by
    apply List.filter_congr
    intro p hp
    have h0 : (0 : ℚ) ≤ p.1 := hnonneg p hp
    simp only [dueBy, decide_eq_decide]
    exact ⟨fun h => le_antisymm h h0, fun h => le_of_eq h⟩
  have hstart : (DanceChoreographer.init seq).start_dance t0
      = ⟨seq, 0, some t0⟩ := rfl
  rw [hstart]
  simp only [DanceChoreographer.get_next_actions, List.drop_zero,
    collectDue_eq_takeWhile, sub_self,
    takeWhile_due_eq_filter 0 seq hsorted, hfe, Nat.zero_add]

/-- Witness for C8: a script with two zero-offset actions and a later one
fires exactly the two zero-offset actions at the start instant. -/
theorem C8_witness :
    OffsetsSorted [((0 : ℚ), DanceAction.move 1 0),
        (0, DanceAction.lights [ColorPalette.red]), (2, DanceAction.finishedDance)]
      ∧ (∀ p ∈ [((0 : ℚ), DanceAction.move 1 0),
          (0, DanceAction.lights [ColorPalette.red]),
          (2, DanceAction.finishedDance)], 0 ≤ p.1)
      ∧ ((DanceChoreographer.init [((0 : ℚ), DanceAction.move 1 0),
            (0, DanceAction.lights [ColorPalette.red]),
            (2, DanceAction.finishedDance)]).start_dance 7).get_next_actions 7
          = some ((([((0 : ℚ), DanceAction.move 1 0),
              (0, DanceAction.lights [ColorPalette.red]),
              (2, DanceAction.finishedDance)]).filter fun p => decide (p.1 = 0)).map
                Prod.snd,
              ⟨[((0 : ℚ), DanceAction.move 1 0),
                (0, DanceAction.lights [ColorPalette.red]),
                (2, DanceAction.finishedDance)],
               (([((0 : ℚ), DanceAction.move 1 0),
                 (0, DanceAction.lights [ColorPalette.red]),
                 (2, DanceAction.finishedDance)]).filter fun p =>
                   decide (p.1 = 0)).length, some 7⟩) :=
  ⟨by decide, by decide, C8_zero_offset_fire _ 7 (by decide) (by decide)⟩

/-- **C9.** The cursor is a `Nat` (hence never below 0), any successful
`get_next_actions` call moves it monotonically upward while keeping it at
most the script length and leaving the script and start time unchanged; and
`start_dance` (callable on any state, hence repeatedly) records the start
time, resets the cursor to 0, and leaves the script contents unchanged. -/
theorem C9_cursor_and_restart (c : DanceChoreographer) (t t' : ℚ)
    (as : List DanceAction) (c' : DanceChoreographer)
    (hlen : c.action_index ≤ c.dance_sequence.length)
    (h : c.get_next_actions t = some (as, c')) :
    c.action_index ≤ c'.action_index
      ∧ c'.action_index ≤ c'.dance_sequence.length
      ∧ c'.dance_sequence = c.dance_sequence
      ∧ c'.start_time = c.start_time
      ∧ (c.start_dance t').start_time = some t'
      ∧ (c.start_dance t').action_index = 0
      ∧ (c.start_dance t').dance_sequence = c.dance_sequence := by
  cases hst : c.start_time with
  | none => simp [DanceChoreographer.get_next_actions, hst] at h
  | some st =>
    simp only [DanceChoreographer.get_next_actions, hst] at h
    obtain ⟨-, h2⟩ := Option.some.injEq .. ▸ Prod.mk.injEq .. ▸ (Option.some.inj h)
    have hk : (collectDue (t - st) (c.dance_sequence.drop c.action_index)).2
        ≤ c.dance_sequence.length - c.action_index := by
      rw [collectDue_eq_takeWhile]
      calc ((c.dance_sequence.drop c.action_index).takeWhile (dueBy (t - st))).length
          ≤ (c.dance_sequence.drop c.action_index).length :=
            (List.takeWhile_sublist _).length_le
        _ = c.dance_sequence.length - c.action_index := List.length_drop ..
    subst h2
    refine ⟨by simp, by simp; omega, rfl, rfl, rfl, rfl, rfl⟩

/-- Witness for C9 at a concrete state and call. -/
theorem C9_witness :
    (⟨[((0 : ℚ), DanceAction.move 1 0), (2, DanceAction.finishedDance)], 1,
        some 0⟩ : DanceChoreographer).action_index
      ≤ ([((0 : ℚ), DanceAction.move 1 0), (2, DanceAction.finishedDance)]).length
    ∧ (⟨[((0 : ℚ), DanceAction.move 1 0), (2, DanceAction.finishedDance)], 1,
        some 0⟩ : DanceChoreographer).get_next_actions 5
      = some ([DanceAction.finishedDance],
          ⟨[((0 : ℚ), DanceAction.move 1 0), (2, DanceAction.finishedDance)], 2, some 0⟩)
    ∧ (1 ≤ 2
      ∧ 2 ≤ ([((0 : ℚ), DanceAction.move 1 0), (2, DanceAction.finishedDance)]).length
      ∧ ([((0 : ℚ), DanceAction.move 1 0), (2, DanceAction.finishedDance)])
          = [((0 : ℚ), DanceAction.move 1 0), (2, DanceAction.finishedDance)]
      ∧ (some (0 : ℚ)) = some (0 : ℚ)
      ∧ ((⟨[((0 : ℚ), DanceAction.move 1 0), (2, DanceAction.finishedDance)], 1,
            some 0⟩ : DanceChoreographer).start_dance 9).start_time = some 9
      ∧ ((⟨[((0 : ℚ), DanceAction.move 1 0), (2, DanceAction.finishedDance)], 1,
            some 0⟩ : DanceChoreographer).start_dance 9).action_index = 0
      ∧ ((⟨[((0 : ℚ), DanceAction.move 1 0), (2, DanceAction.finishedDance)], 1,
            some 0⟩ : DanceChoreographer).start_dance 9).dance_sequence
          = [((0 : ℚ), DanceAction.move 1 0), (2, DanceAction.finishedDance)]) := by
  refine ⟨by decide, ?_, ?_⟩
  · norm_num [DanceChoreographer.get_next_actions, collectDue]
  · exact C9_cursor_and_restart
      ⟨[((0 : ℚ), DanceAction.move 1 0), (2, DanceAction.finishedDance)], 1, some 0⟩
      5 9 [DanceAction.finishedDance]
      ⟨[((0 : ℚ), DanceAction.move 1 0), (2, DanceAction.finishedDance)], 2, some 0⟩
      (by decide)
      (by norm_num [DanceChoreographer.get_next_actions, collectDue])

/-- **C6 (amended).** If `get_next_actions` is called at a time `t₂` earlier
than the time `t₁` of a previous successful call in the same performance,
the cursor is not corrupted: the call emits no actions and returns the state
unchanged.  However, no `ClockRegression` diagnostic is surfaced — the
regression is silently a no-op (see `C6_counterexample`). -/
theorem C6_regression_noop (seq : List (ℚ × DanceAction)) (i : Nat)
    (st t₁ t₂ : ℚ) (as : List DanceAction) (c₁ : DanceChoreographer)
    (h1 : (⟨seq, i, some st⟩ : DanceChoreographer).get_next_actions t₁ = some (as, c₁))
    (hreg : t₂ < t₁) :
    c₁.get_next_actions t₂ = some ([], c₁) := by
  simp only [DanceChoreographer.get_next_actions, Option.some.injEq] at h1
  have h2 : c₁ = ⟨seq, i + (collectDue (t₁ - st) (seq.drop i)).2, some st⟩ :=
    (Prod.mk.injEq .. ▸ h1).2.symm ▸ rfl
  have hdrop : seq.drop (i + ((seq.drop i).takeWhile (dueBy (t₁ - st))).length)
      = (seq.drop i).dropWhile (dueBy (t₁ - st)) := by
    rw [← List.drop_drop, drop_length_takeWhile]
  rw [h2, collectDue_eq_takeWhile]
  simp [DanceChoreographer.get_next_actions, hdrop,
    collectDue_dropWhile_le (t₂ - st) (t₁ - st) (by linarith)]

/-- Witness for C6 (amended) at a concrete regression: advance at time 5,
then at the regressed time 3. -/
theorem C6_witness :
    (⟨[((0 : ℚ), DanceAction.move 1 0), (10, DanceAction.finishedDance)], 0,
        some 0⟩ : DanceChoreographer).get_next_actions 5
      = some ([DanceAction.move 1 0],
          ⟨[((0 : ℚ), DanceAction.move 1 0), (10, DanceAction.finishedDance)], 1, some 0⟩)
    ∧ (3 : ℚ) < 5
    ∧ (⟨[((0 : ℚ), DanceAction.move 1 0), (10, DanceAction.finishedDance)], 1,
          some 0⟩ : DanceChoreographer).get_next_actions 3
        = some ([],
            ⟨[((0 : ℚ), DanceAction.move 1 0), (10, DanceAction.finishedDance)], 1,
              some 0⟩) :=
  ⟨by norm_num [DanceChoreographer.get_next_actions, collectDue],
   by norm_num,
   C6_regression_noop [((0 : ℚ), DanceAction.move 1 0), (10, DanceAction.finishedDance)]
     0 0 5 3 [DanceAction.move 1 0]
     ⟨[((0 : ℚ), DanceAction.move 1 0), (10, DanceAction.finishedDance)], 1, some 0⟩
     (by norm_num [DanceChoreographer.get_next_actions, collectDue]) (by norm_num)⟩

/-- **C6 (counterexample to the claim as stated).** Concrete run of the
publisher: the dance starts at time 0 (firing the move action), a tick at
time 5 is observed, then the clock regresses and the next tick carries
time 3.  The complete observable output of that regressed tick is: the
previously latched commands republished (restamped to 3), no actions fired,
and an **empty** event list — the code surfaces no `ClockRegression`
diagnostic (no diagnostic at all); the regression is silently ignored. -/
theorem C6_counterexample :
    ((((DanceCommandPublisher.init (DanceChoreographer.init
          [(0, DanceAction.move 1 0),
           (10, DanceAction.finishedDance)])).timer_callback 0 1 1).1.timer_callback
          5 1 1).1.timer_callback 3 1 1).2
      = TickResult.published ⟨1, 0⟩
          { override_system := false, leds := List.replicate 6 ⟨0, 0, 0⟩, stamp := 3 }
          [] [] := by
  norm_num [DanceCommandPublisher.timer_callback, DanceCommandPublisher.init, runReady,
    DanceChoreographer.get_next_actions, DanceChoreographer.start_dance,
    DanceChoreographer.init, collectDue, foldActions, applyAction, Twist.new,
    LightringLeds.new]

/-- **C5 (amended).** Construction performs no validation at all:
`Lights.__init__` stores a color list of any length unchanged,
`DanceChoreographer.__init__` accepts any script verbatim (negative or
decreasing offsets included), no `InvalidScript` error exists anywhere in
the code, and mid-performance the sequencer processes such scripts without
failing (`get_next_actions` returns a value on every started state). -/
theorem C5_no_validation (cs : List LedColor) (seq : List (ℚ × DanceAction))
    (i : Nat) (st t : ℚ) :
    Lights.init cs = DanceAction.lights cs
      ∧ (DanceChoreographer.init seq).dance_sequence = seq
      ∧ (DanceChoreographer.init seq).action_index = 0
      ∧ ((⟨seq, i, some st⟩ : DanceChoreographer).get_next_actions t).isSome = true :=
  ⟨rfl, rfl, rfl, rfl⟩

/-- **C5 (counterexample to the claim as stated).** A `Lights` action built
from a 5-color list (not 6) and a choreographer built from a script with a
negative and decreasing offset are both accepted: construction succeeds and
stores the malformed data unchanged, so no `InvalidScript` (or any other)
construction-time failure occurs. -/
theorem C5_counterexample :
    Lights.init [ColorPalette.red, ColorPalette.red, ColorPalette.red,
        ColorPalette.red, ColorPalette.red]
      = DanceAction.lights [ColorPalette.red, ColorPalette.red, ColorPalette.red,
          ColorPalette.red, ColorPalette.red]
    ∧ DanceChoreographer.init [((3 : ℚ), DanceAction.finishedDance),
          (-1, DanceAction.move 1 0)]
        = ⟨[((3 : ℚ), DanceAction.finishedDance), (-1, DanceAction.move 1 0)], 0, none⟩ :=
  ⟨rfl, rfl⟩

/-- Two light commands agreeing on all fields are equal. -/
theorem LightringLeds.eq_of_fields (a b : LightringLeds)
    (h1 : a.override_system = b.override_system) (h2 : a.leds = b.leds)
    (h3 : a.stamp = b.stamp) : a = b := by
  cases a; cases b
  simp only at h1 h2 h3
  simp [h1, h2, h3]

/-- A successful `get_next_actions` call preserves the script and the start
time, which in particular is set. -/
theorem get_next_actions_some_inv (c : DanceChoreographer) (t : ℚ)
    (acts : List DanceAction) (c' : DanceChoreographer)
    (h : c.get_next_actions t = some (acts, c')) :
    c'.start_time = c.start_time ∧ c'.dance_sequence = c.dance_sequence
      ∧ ∃ st, c.start_time = some st := by
  cases hst : c.start_time with
  | none => simp [DanceChoreographer.get_next_actions, hst] at h
  | some st =>
    simp only [DanceChoreographer.get_next_actions, hst, Option.some.injEq] at h
    rw [Prod.mk.injEq] at h
    obtain ⟨h1, h2⟩ := h
    subst h2
    exact ⟨rfl, rfl, st, rfl⟩

/-- A started state makes `get_next_actions` succeed, with the stated
output. -/
theorem get_next_actions_started (c : DanceChoreographer) (st t : ℚ)
    (hst : c.start_time = some st) :
    c.get_next_actions t
      = some ((collectDue (t - st) (c.dance_sequence.drop c.action_index)).1,
          { c with action_index :=
              c.action_index
                + (collectDue (t - st) (c.dance_sequence.drop c.action_index)).2 }) := by
  simp [DanceChoreographer.get_next_actions, hst]

/-- Inversion of a publishing `runReady` step: the fired actions are the due
actions, the published twist and (restamped) light command come from folding
them over the latches, the events are the prefix followed by the fold's
events, and the new state stores the published messages as the latches while
leaving `ready` and the wait printout untouched. -/
theorem runReady_published_inv (s : DanceCommandPublisher) (t : ℚ)
    (pre : List Event) (s' : DanceCommandPublisher) (tw : Twist)
    (lr : LightringLeds) (es : List Event) (fd : List DanceAction)
    (h : runReady s t pre = (s', .published tw lr es fd)) :
    s.dance_choreographer.get_next_actions t = some (fd, s'.dance_choreographer)
      ∧ tw = (foldActions s.last_twist s.last_lightring fd).1
      ∧ lr = { (foldActions s.last_twist s.last_lightring fd).2.1 with stamp := t }
      ∧ es = pre ++ (foldActions s.last_twist s.last_lightring fd).2.2
      ∧ s'.last_twist = tw ∧ s'.last_lightring = lr
      ∧ s'.ready = s.ready
      ∧ s'.last_wait_subscriber_printout = s.last_wait_subscriber_printout := by
  cases hga : s.dance_choreographer.get_next_actions t with
  | none => simp [runReady, hga] at h
  | some r =>
    obtain ⟨acts, chor'⟩ := r
    simp only [runReady, hga, Prod.mk.injEq, TickResult.published.injEq] at h
    obtain ⟨hs', htw, hlr, hes, hfd⟩ := h
    subst hfd htw hlr hes
    subst hs'
    exact ⟨rfl, rfl, rfl, rfl, rfl, rfl, rfl, rfl⟩

/-- `runReady` never changes `ready` or the wait printout, and never emits
events beyond the given prefix and the fold's action events. -/
theorem runReady_state_fields (s : DanceCommandPublisher) (t : ℚ)
    (pre : List Event) :
    (runReady s t pre).1.ready = s.ready
      ∧ (runReady s t pre).1.last_wait_subscriber_printout
          = s.last_wait_subscriber_printout := by
  cases hga : s.dance_choreographer.get_next_actions t with
  | none => simp [runReady, hga]
  | some r => obtain ⟨acts, chor'⟩ := r; simp [runReady, hga]

/-- The fold of the action loop never emits the waiting log message. -/
theorem waiting_not_mem_foldActions (as : List DanceAction) :
    ∀ (tw : Twist) (lr : LightringLeds),
      Event.waiting ∉ (foldActions tw lr as).2.2 := by
  induction as with
  | nil => intro tw lr; simp [foldActions]
  | cons a rest ih =>
    intro tw lr
    cases a <;>
      simpa [foldActions, applyAction] using
        ih _ _

/-- A `runReady` tick whose event prefix has no waiting message emits no
waiting message. -/
theorem waiting_not_mem_runReady (s : DanceCommandPublisher) (t : ℚ)
    (pre : List Event) (hpre : Event.waiting ∉ pre) :
    Event.waiting ∉ (runReady s t pre).2.events := by
  cases hga : s.dance_choreographer.get_next_actions t with
  | none => simp [runReady, hga, TickResult.events]
  | some r =>
    obtain ⟨acts, chor'⟩ := r
    simp only [runReady, hga, TickResult.events, List.mem_append]
    rintro (h | h)
    · exact hpre h
    · exact waiting_not_mem_foldActions acts _ _ h

/-- A ready tick is the `runReady` tail of the callback. -/
theorem timer_callback_ready (s : DanceCommandPublisher) (t : ℚ) (v l : Nat)
    (h : s.ready = true) : s.timer_callback t v l = runReady s t [] := by
  simp [DanceCommandPublisher.timer_callback, h]

/-- In a run of ready ticks none of which consumes an action, every tick
republishes the latched twist `tw₀` and the latched light command `lr₀`
(restamped to the tick's time) — the latch-holding behavior of the loop. -/
theorem runTicks_latched (tw₀ : Twist) (lr₀ : LightringLeds) :
    ∀ (inputs : List (ℚ × Nat × Nat)) (s : DanceCommandPublisher) (st : ℚ),
      s.ready = true → s.dance_choreographer.start_time = some st →
      s.last_twist = tw₀ →
      s.last_lightring.override_system = lr₀.override_system →
      s.last_lightring.leds = lr₀.leds →
      (∀ e ∈ (runTicks s inputs).2, TickResult.fired e.2 = []) →
      ∀ e ∈ (runTicks s inputs).2,
        e.2 = TickResult.published tw₀ { lr₀ with stamp := e.1 } [] [] := by
  intro inputs
  induction inputs with
  | nil =>
    intro s st _ _ _ _ _ _ e he
    simp [runTicks] at he
  | cons inp rest ih =>
    obtain ⟨t, v, l⟩ := inp
    intro s st hready hst htw hov hleds hfired
    have htrace : (runTicks s ((t, v, l) :: rest)).2
        = (t, (s.timer_callback t v l).2)
            :: (runTicks (s.timer_callback t v l).1 rest).2 := rfl
    have hga := get_next_actions_started s.dance_choreographer st t hst
    have hcb := timer_callback_ready s t v l hready
    have hacts : (collectDue (t - st)
        (s.dance_choreographer.dance_sequence.drop
          s.dance_choreographer.action_index)).1 = [] := by
      have := hfired (t, (s.timer_callback t v l).2) (by rw [htrace]; exact List.mem_cons_self _ _)
      rw [hcb] at this
      simpa [runReady, hga, TickResult.fired] using this
    have hstep : s.timer_callback t v l
        = ({ s with
              dance_choreographer := { s.dance_choreographer with
                action_index := s.dance_choreographer.action_index
                  + (collectDue (t - st) (s.dance_choreographer.dance_sequence.drop
                      s.dance_choreographer.action_index)).2 },
              last_lightring := { s.last_lightring with stamp := t } },
           TickResult.published s.last_twist { s.last_lightring with stamp := t }
             [] []) := by
      rw [hcb]
      simp [runReady, hga, hacts, foldActions]
    intro e he
    rw [htrace] at he
    rcases List.mem_cons.mp he with he | he
    · subst he
      show (s.timer_callback t v l).2
          = TickResult.published tw₀ { lr₀ with stamp := t } [] []
      rw [hstep]
      show TickResult.published s.last_twist { s.last_lightring with stamp := t } [] []
          = TickResult.published tw₀ { lr₀ with stamp := t } [] []
      rw [htw,
        LightringLeds.eq_of_fields { s.last_lightring with stamp := t }
          { lr₀ with stamp := t } hov hleds rfl]
    · refine ih (s.timer_callback t v l).1 st ?_ ?_ ?_ ?_ ?_ ?_ e he
      · rw [hstep]; exact hready
      · rw [hstep]; exact hst
      · rw [hstep]; exact htw
      · rw [hstep]; exact hov
      · rw [hstep]; exact hleds
      · intro e' he'
        exact hfired e' (by rw [htrace]; exact List.mem_cons_of_mem _ he')

/-- **C2.** On a ready tick that published `tw₁`/`lr₁`, a following tick on
which the sequencer returns no new actions publishes exactly the same twist
and exactly the same light command except for its timestamp, which becomes
the new tick's time — and it does publish (the result is `published`),
unconditionally of the subscription counts. -/
theorem C2_latch_persistence (s : DanceCommandPublisher) (t t' : ℚ)
    (v₁ l₁ v₂ l₂ : Nat) (tw₁ : Twist) (lr₁ : LightringLeds) (es₁ : List Event)
    (fd₁ : List DanceAction) (s₁ : DanceCommandPublisher)
    (c₂ : DanceChoreographer)
    (hready : s.ready = true)
    (h1 : s.timer_callback t v₁ l₁ = (s₁, .published tw₁ lr₁ es₁ fd₁))
    (h2 : s₁.dance_choreographer.get_next_actions t' = some ([], c₂)) :
    s₁.timer_callback t' v₂ l₂
      = ({ s₁ with
            dance_choreographer := c₂,
            last_lightring := { lr₁ with stamp := t' } },
         .published tw₁ { lr₁ with stamp := t' } [] []) := by
  rw [timer_callback_ready s t v₁ l₁ hready] at h1
  obtain ⟨hga, htw, hlr, hes, hs₁tw, hs₁lr, hs₁r, hs₁w⟩ :=
    runReady_published_inv s t [] s₁ tw₁ lr₁ es₁ fd₁ h1
  have hready₁ : s₁.ready = true := by rw [hs₁r]; exact hready
  rw [timer_callback_ready s₁ t' v₂ l₂ hready₁]
  simp [runReady, h2, foldActions, hs₁tw, hs₁lr]

/-- The two-action demo script used by several witnesses. -/
def latchDemoScript : List (ℚ × DanceAction) :=
  [(0, .move 1 0), (10, .finishedDance)]

/-- A ready publisher state at the start of the demo script. -/
def latchDemoStart : DanceCommandPublisher :=
  ⟨⟨latchDemoScript, 0, some 0⟩, Twist.new, LightringLeds.new, true, none⟩

/-- The publisher state after the demo script's move action fired at time 0. -/
def latchDemoMid : DanceCommandPublisher :=
  ⟨⟨latchDemoScript, 1, some 0⟩, ⟨1, 0⟩, { LightringLeds.new with stamp := 0 },
   true, none⟩

/-- Witness for C2: a concrete publish tick followed by a quiet tick. -/
theorem C2_witness :
    latchDemoStart.ready = true
    ∧ latchDemoStart.timer_callback 0 1 1
        = (latchDemoMid,
           .published ⟨1, 0⟩ { LightringLeds.new with stamp := 0 } [.newMove]
             [.move 1 0])
    ∧ latchDemoMid.dance_choreographer.get_next_actions 5
        = some ([], ⟨latchDemoScript, 1, some 0⟩)
    ∧ latchDemoMid.timer_callback 5 0 0
        = ({ latchDemoMid with
              dance_choreographer := ⟨latchDemoScript, 1, some 0⟩,
              last_lightring := { LightringLeds.new with stamp := 5 } },
           .published ⟨1, 0⟩ { LightringLeds.new with stamp := 5 } [] []) := by
  refine ⟨rfl, ?_, ?_, ?_⟩
  · norm_num [DanceCommandPublisher.timer_callback, runReady,
      DanceChoreographer.get_next_actions, collectDue, foldActions, applyAction,
      latchDemoStart, latchDemoMid, latchDemoScript]
  · norm_num [DanceChoreographer.get_next_actions, collectDue, latchDemoMid,
      latchDemoScript]
  · exact C2_latch_persistence latchDemoStart 0 5 1 1 0 0 ⟨1, 0⟩
      { LightringLeds.new with stamp := 0 } [.newMove] [.move 1 0] latchDemoMid
      ⟨latchDemoScript, 1, some 0⟩ rfl
      (by norm_num [DanceCommandPublisher.timer_callback, runReady,
        DanceChoreographer.get_next_actions, collectDue, foldActions, applyAction,
        latchDemoStart, latchDemoMid, latchDemoScript])
      (by norm_num [DanceChoreographer.get_next_actions, collectDue, latchDemoMid,
        latchDemoScript])

/-- Folding a tick's actions whose last action is `FinishedDance` resets the
twist to zero and the light command to a fresh neutral one, whatever came
before. -/
theorem foldActions_concat_finished :
    ∀ (as : List DanceAction) (tw : Twist) (lr : LightringLeds),
      (foldActions tw lr (as ++ [DanceAction.finishedDance])).1 = Twist.new
        ∧ (foldActions tw lr (as ++ [DanceAction.finishedDance])).2.1
            = { LightringLeds.new with override_system := false } := by
  intro as
  induction as with
  | nil => intro tw lr; exact ⟨rfl, rfl⟩
  | cons a rest ih =>
    intro tw lr
    simp only [List.cons_append, foldActions]
    exact ⟨(ih _ _).1, (ih _ _).2⟩

/-- **C4.** Once a tick consumes a batch of actions ending in
`FinishedDance`, every subsequent tick on which the sequencer returns no
further action publishes a twist with zero linear and angular speed
(`Twist.new`) and a light command with the override flag false (the neutral
`LightringLeds.new`, restamped to the tick's time) — indefinitely, for the
whole remaining run. -/
theorem C4_finished_reset (s : DanceCommandPublisher) (t : ℚ) (v l : Nat)
    (tw : Twist) (lr : LightringLeds) (es : List Event) (as' : List DanceAction)
    (s₁ : DanceCommandPublisher) (inputs : List (ℚ × Nat × Nat))
    (hready : s.ready = true)
    (h1 : s.timer_callback t v l
        = (s₁, .published tw lr es (as' ++ [DanceAction.finishedDance])))
    (hfired : ∀ e ∈ (runTicks s₁ inputs).2, TickResult.fired e.2 = []) :
    ∀ e ∈ (runTicks s₁ inputs).2,
      e.2 = TickResult.published Twist.new { LightringLeds.new with stamp := e.1 }
        [] [] := by
  rw [timer_callback_ready s t v l hready] at h1
  obtain ⟨hga, htw, hlr, hes, hs₁tw, hs₁lr, hs₁r, hs₁w⟩ :=
    runReady_published_inv s t [] s₁ tw lr es _ h1
  obtain ⟨hfin1, hfin2⟩ := foldActions_concat_finished as' s.last_twist s.last_lightring
  obtain ⟨hpst, hpseq, st, hst⟩ := get_next_actions_some_inv _ _ _ _ hga
  have h1tw : s₁.last_twist = Twist.new := by rw [hs₁tw, htw, hfin1]
  have h1ov : s₁.last_lightring.override_system = LightringLeds.new.override_system := by
    rw [hs₁lr, hlr]
    show (foldActions s.last_twist s.last_lightring
        (as' ++ [DanceAction.finishedDance])).2.1.override_system = _
    rw [hfin2]
    rfl
  have h1leds : s₁.last_lightring.leds = LightringLeds.new.leds := by
    rw [hs₁lr, hlr]
    show (foldActions s.last_twist s.last_lightring
        (as' ++ [DanceAction.finishedDance])).2.1.leds = _
    rw [hfin2]
  have h1st : s₁.dance_choreographer.start_time = some st := by rw [hpst]; exact hst
  have h1ready : s₁.ready = true := by rw [hs₁r]; exact hready
  exact runTicks_latched Twist.new LightringLeds.new inputs s₁ st h1ready h1st h1tw
    h1ov h1leds hfired

/-- A ready publisher state holding non-neutral latches, about to consume a
lone `FinishedDance` script entry. -/
def finDemoStart : DanceCommandPublisher :=
  ⟨⟨[(0, .finishedDance)], 0, some 0⟩, ⟨1, 0⟩,
   ⟨true, List.replicate 6 ColorPalette.red, 0⟩, true, none⟩

/-- The state after `finDemoStart` consumed its `FinishedDance` at time 0. -/
def finDemoAfter : DanceCommandPublisher :=
  ⟨⟨[(0, .finishedDance)], 1, some 0⟩, Twist.new,
   { LightringLeds.new with stamp := 0 }, true, none⟩

/-- Witness for C4: after the `FinishedDance` tick, two further quiet ticks
both publish the neutral commands. -/
theorem C4_witness :
    finDemoStart.ready = true
    ∧ finDemoStart.timer_callback 0 1 1
        = (finDemoAfter,
           .published Twist.new { LightringLeds.new with stamp := 0 }
             [.finishedDanceSequence] ([] ++ [DanceAction.finishedDance]))
    ∧ (∀ e ∈ (runTicks finDemoAfter [(1, 0, 0), (2, 1, 1)]).2,
        TickResult.fired e.2 = [])
    ∧ ∀ e ∈ (runTicks finDemoAfter [(1, 0, 0), (2, 1, 1)]).2,
        e.2 = TickResult.published Twist.new { LightringLeds.new with stamp := e.1 }
          [] [] := by
  have htr : (runTicks finDemoAfter [(1, 0, 0), (2, 1, 1)]).2
      = [(1, .published Twist.new { LightringLeds.new with stamp := 1 } [] []),
         (2, .published Twist.new { LightringLeds.new with stamp := 2 } [] [])] := by
    norm_num [runTicks, DanceCommandPublisher.timer_callback, runReady,
      DanceChoreographer.get_next_actions, collectDue, foldActions, finDemoAfter]
  have hfired : ∀ e ∈ (runTicks finDemoAfter [(1, 0, 0), (2, 1, 1)]).2,
      TickResult.fired e.2 = [] := by
    intro e he
    rw [htr] at he
    rcases List.mem_cons.mp he with h | h
    · subst h; rfl
    · rcases List.mem_cons.mp h with h | h
      · subst h; rfl
      · simp at h
  have h1 : finDemoStart.timer_callback 0 1 1
      = (finDemoAfter,
         .published Twist.new { LightringLeds.new with stamp := 0 }
           [.finishedDanceSequence] ([] ++ [DanceAction.finishedDance])) := by
    norm_num [DanceCommandPublisher.timer_callback, runReady,
      DanceChoreographer.get_next_actions, collectDue, foldActions, applyAction,
      finDemoStart, finDemoAfter, Twist.new, LightringLeds.new]
  exact ⟨rfl, h1, hfired,
    C4_finished_reset finDemoStart 0 1 1 Twist.new
      { LightringLeds.new with stamp := 0 } [.finishedDanceSequence] []
      finDemoAfter [(1, 0, 0), (2, 1, 1)] rfl h1 hfired⟩

/-- **C10.** Restarting the performance (`start_dance` on the choreographer)
leaves the publisher's latched commands untouched, and until an action fires
after the restart every tick keeps publishing exactly the previously latched
twist and light command (the latter restamped), not the neutral defaults. -/
theorem C10_restart_preserves_latch (s : DanceCommandPublisher) (t' : ℚ)
    (inputs : List (ℚ × Nat × Nat))
    (hready : s.ready = true)
    (hfired : ∀ e ∈ (runTicks
        { s with dance_choreographer := s.dance_choreographer.start_dance t' }
        inputs).2, TickResult.fired e.2 = []) :
    ({ s with dance_choreographer := s.dance_choreographer.start_dance t' }.last_twist
        = s.last_twist
      ∧ { s with
            dance_choreographer := s.dance_choreographer.start_dance t' }.last_lightring
        = s.last_lightring)
    ∧ ∀ e ∈ (runTicks
        { s with dance_choreographer := s.dance_choreographer.start_dance t' }
        inputs).2,
        e.2 = TickResult.published s.last_twist
          { s.last_lightring with stamp := e.1 } [] [] := by
  refine ⟨⟨rfl, rfl⟩, ?_⟩
  exact runTicks_latched s.last_twist s.last_lightring inputs
    { s with dance_choreographer := s.dance_choreographer.start_dance t' } t'
    hready rfl rfl rfl rfl hfired

/-- A ready publisher state with non-neutral latches and a pending script
whose next action is 5 seconds away, used to witness a restart. -/
def restartDemo : DanceCommandPublisher :=
  ⟨⟨[(5, .move 2 0)], 1, some 0⟩, ⟨1, 0⟩,
   ⟨true, List.replicate 6 ColorPalette.red, 3⟩, true, none⟩

/-- Witness for C10: restart at time 100, then a quiet tick at 102 that
republishes the pre-restart latched commands. -/
theorem C10_witness :
    restartDemo.ready = true
    ∧ (∀ e ∈ (runTicks
        { restartDemo with
            dance_choreographer := restartDemo.dance_choreographer.start_dance 100 }
        [(102, 0, 0)]).2, TickResult.fired e.2 = [])
    ∧ (({ restartDemo with
            dance_choreographer :=
              restartDemo.dance_choreographer.start_dance 100 }.last_twist
          = restartDemo.last_twist
        ∧ { restartDemo with
              dance_choreographer :=
                restartDemo.dance_choreographer.start_dance 100 }.last_lightring
          = restartDemo.last_lightring)
      ∧ ∀ e ∈ (runTicks
          { restartDemo with
              dance_choreographer := restartDemo.dance_choreographer.start_dance 100 }
          [(102, 0, 0)]).2,
          e.2 = TickResult.published restartDemo.last_twist
            { restartDemo.last_lightring with stamp := e.1 } [] []) := by
  have htr : (runTicks
      { restartDemo with
          dance_choreographer := restartDemo.dance_choreographer.start_dance 100 }
      [(102, 0, 0)]).2
      = [(102, .published ⟨1, 0⟩
          ⟨true, List.replicate 6 ColorPalette.red, 102⟩ [] [])] := by
    norm_num [runTicks, DanceCommandPublisher.timer_callback, runReady,
      DanceChoreographer.get_next_actions, DanceChoreographer.start_dance,
      collectDue, foldActions, restartDemo]
  have hfired : ∀ e ∈ (runTicks
      { restartDemo with
          dance_choreographer := restartDemo.dance_choreographer.start_dance 100 }
      [(102, 0, 0)]).2, TickResult.fired e.2 = [] := by
    intro e he
    rw [htr] at he
    rcases List.mem_cons.mp he with h | h
    · subst h; rfl
    · simp at h
  exact ⟨rfl, hfired, C10_restart_preserves_latch restartDemo 100 [(102, 0, 0)]
    rfl hfired⟩

/-- Unfolding `waitTimes` over a trace entry. -/
theorem waitTimes_cons (t : ℚ) (r : TickResult) (tr : List (ℚ × TickResult)) :
    waitTimes ((t, r) :: tr)
      = if Event.waiting ∈ r.events then t :: waitTimes tr else waitTimes tr := by
  by_cases h : Event.waiting ∈ r.events <;>
    simp [waitTimes, List.filter_cons, h]

/-- While the velocity channel has no subscriber, every tick of a
not-yet-ready publisher returns early without publishing anything (and the
publisher stays not ready). -/
theorem runTicks_not_ready :
    ∀ (inputs : List (ℚ × Nat × Nat)) (s : DanceCommandPublisher),
      s.ready = false → (∀ i ∈ inputs, i.2.1 = 0) →
      ∀ e ∈ (runTicks s inputs).2, ∃ es, e.2 = TickResult.silent es := by
  intro inputs
  induction inputs with
  | nil => intro s _ _ e he; simp [runTicks] at he
  | cons inp rest ih =>
    obtain ⟨t, v, l⟩ := inp
    intro s hready hv
    have hv0 : v = 0 := hv (t, v, l) (List.mem_cons_self _ _)
    subst hv0
    have htrace : (runTicks s ((t, 0, l) :: rest)).2
        = (t, (s.timer_callback t 0 l).2)
            :: (runTicks (s.timer_callback t 0 l).1 rest).2 := rfl
    have hcond : ¬ ((0 : Nat) > 0 ∧ l ≥ 0) := by simp
    by_cases hdue : waitLogDue s.last_wait_subscriber_printout t = true
    · have hcb : s.timer_callback t 0 l
          = ({ s with last_wait_subscriber_printout := some t },
             .silent [.waiting]) := by
        simp [DanceCommandPublisher.timer_callback, hready, hcond, hdue]
      intro e he
      rw [htrace] at he
      rcases List.mem_cons.mp he with h | h
      · exact ⟨[.waiting], by rw [h]; show (s.timer_callback t 0 l).2 = _; rw [hcb]⟩
      · refine ih (s.timer_callback t 0 l).1 ?_ ?_ e h
        · rw [hcb]; exact hready
        · intro i hi; exact hv i (List.mem_cons_of_mem _ hi)
    · have hcb : s.timer_callback t 0 l = (s, .silent []) := by
        simp [DanceCommandPublisher.timer_callback, hready, hcond, hdue]
      intro e he
      rw [htrace] at he
      rcases List.mem_cons.mp he with h | h
      · exact ⟨[], by rw [h]; show (s.timer_callback t 0 l).2 = _; rw [hcb]⟩
      · refine ih (s.timer_callback t 0 l).1 ?_ ?_ e h
        · rw [hcb]; exact hready
        · intro i hi; exact hv i (List.mem_cons_of_mem _ hi)

/-- Debouncing of the waiting log: in any run, the times at which the
waiting message is logged are pairwise more than 5 seconds apart; moreover
every such time is more than 5 seconds after whatever printout time the
initial state already recorded. -/
theorem runTicks_debounce :
    ∀ (inputs : List (ℚ × Nat × Nat)) (s : DanceCommandPublisher),
      (waitTimes (runTicks s inputs).2).Pairwise (fun a b => 5 < b - a)
        ∧ ∀ w, s.last_wait_subscriber_printout = some w →
            ∀ x ∈ waitTimes (runTicks s inputs).2, 5 < x - w := by
  intro inputs
  induction inputs with
  | nil =>
    intro s
    constructor
    · simp [runTicks, waitTimes]
    · intro w _ x hx; simp [runTicks, waitTimes] at hx
  | cons inp rest ih =>
    obtain ⟨t, v, l⟩ := inp
    intro s
    have htrace : (runTicks s ((t, v, l) :: rest)).2
        = (t, (s.timer_callback t v l).2)
            :: (runTicks (s.timer_callback t v l).1 rest).2 := rfl
    by_cases hready : s.ready = true
    · have hcb : s.timer_callback t v l = runReady s t [] :=
        timer_callback_ready s t v l hready
      have hw : Event.waiting ∉ ((s.timer_callback t v l).2).events := by
        rw [hcb]; exact waiting_not_mem_runReady s t [] (by simp)
      have hlw : (s.timer_callback t v l).1.last_wait_subscriber_printout
          = s.last_wait_subscriber_printout := by
        rw [hcb]; exact (runReady_state_fields s t []).2
      rw [htrace, waitTimes_cons, if_neg hw]
      exact ⟨(ih _).1, fun w hw' x hx => (ih _).2 w (by rw [hlw]; exact hw') x hx⟩
    · by_cases hconn : v > 0 ∧ l ≥ 0
      · have hcb : s.timer_callback t v l
            = runReady
                { s with
                  ready := true,
                  dance_choreographer := s.dance_choreographer.start_dance t }
                t [.subscribersConnected] := by
          simp [DanceCommandPublisher.timer_callback, hready, hconn]
        have hw : Event.waiting ∉ ((s.timer_callback t v l).2).events := by
          rw [hcb]; exact waiting_not_mem_runReady _ t _ (by simp)
        have hlw : (s.timer_callback t v l).1.last_wait_subscriber_printout
            = s.last_wait_subscriber_printout := by
          rw [hcb]; exact (runReady_state_fields _ t _).2
        rw [htrace, waitTimes_cons, if_neg hw]
        exact ⟨(ih _).1, fun w hw' x hx => (ih _).2 w (by rw [hlw]; exact hw') x hx⟩
      · have hv0 : ¬ v > 0 := fun hgt => hconn ⟨hgt, Nat.zero_le l⟩
        by_cases hdue : waitLogDue s.last_wait_subscriber_printout t = true
        · have hcb : s.timer_callback t v l
              = ({ s with last_wait_subscriber_printout := some t },
                 .silent [.waiting]) := by
            simp [DanceCommandPublisher.timer_callback, hready, hv0, hdue]
          have hw : Event.waiting ∈ ((s.timer_callback t v l).2).events := by
            rw [hcb]; simp [TickResult.events]
          obtain ⟨P', Q'⟩ := ih (s.timer_callback t v l).1
          have hlw : (s.timer_callback t v l).1.last_wait_subscriber_printout
              = some t := by rw [hcb]
          have hQt : ∀ x ∈ waitTimes (runTicks (s.timer_callback t v l).1 rest).2,
              5 < x - t := Q' t hlw
          rw [htrace, waitTimes_cons, if_pos hw]
          constructor
          · exact List.pairwise_cons.mpr ⟨hQt, P'⟩
          · intro w hw' x hx
            have hgap : 5 < t - w := by
              rw [hw'] at hdue
              simpa [waitLogDue] using hdue
            rcases List.mem_cons.mp hx with h | h
            · rw [h]; exact hgap
            · have := hQt x h
              linarith
        · have hcb : s.timer_callback t v l = (s, .silent []) := by
            simp [DanceCommandPublisher.timer_callback, hready, hv0, hdue]
          have hw : Event.waiting ∉ ((s.timer_callback t v l).2).events := by
            rw [hcb]; simp [TickResult.events]
          have hlw : (s.timer_callback t v l).1.last_wait_subscriber_printout
              = s.last_wait_subscriber_printout := by rw [hcb]
          rw [htrace, waitTimes_cons, if_neg hw]
          exact ⟨(ih _).1, fun w hw' x hx => (ih _).2 w (by rw [hlw]; exact hw') x hx⟩

/-- **C3.** From a freshly constructed publisher: (a) as long as the
readiness signal (a velocity subscriber) is never observed, every tick
returns early publishing nothing; and (b) in any run whatsoever, the
waiting diagnostic is logged at times pairwise more than 5 seconds apart,
i.e. at most once per 5-second window. -/
theorem C3_gating_and_debounce (chor : DanceChoreographer)
    (inputs : List (ℚ × Nat × Nat)) :
    ((∀ i ∈ inputs, i.2.1 = 0) →
      ∀ e ∈ (runTicks (DanceCommandPublisher.init chor) inputs).2,
        ∃ es, e.2 = TickResult.silent es)
    ∧ (waitTimes (runTicks (DanceCommandPublisher.init chor) inputs).2).Pairwise
        (fun a b => 5 < b - a) := by
  constructor
  · intro h
    exact runTicks_not_ready inputs (DanceCommandPublisher.init chor) rfl h
  · exact (runTicks_debounce inputs (DanceCommandPublisher.init chor)).1

/-- Witness for C3: three subscriber-less ticks at times 0, 3 and 6 — all
silent, with the waiting message logged only at 0 and 6 (3 − 0 ≤ 5 is
debounced), more than 5 seconds apart. -/
theorem C3_witness :
    (∀ i ∈ ([(0, 0, 0), (3, 0, 5), (6, 0, 0)] : List (ℚ × Nat × Nat)), i.2.1 = 0)
    ∧ (∀ e ∈ (runTicks (DanceCommandPublisher.init
          (DanceChoreographer.init latchDemoScript))
          [(0, 0, 0), (3, 0, 5), (6, 0, 0)]).2,
        ∃ es, e.2 = TickResult.silent es)
    ∧ (waitTimes (runTicks (DanceCommandPublisher.init
          (DanceChoreographer.init latchDemoScript))
          [(0, 0, 0), (3, 0, 5), (6, 0, 0)]).2).Pairwise (fun a b => 5 < b - a) :=
  ⟨by decide,
   (C3_gating_and_debounce (DanceChoreographer.init latchDemoScript)
       [(0, 0, 0), (3, 0, 5), (6, 0, 0)]).1 (by decide),
   (C3_gating_and_debounce (DanceChoreographer.init latchDemoScript)
       [(0, 0, 0), (3, 0, 5), (6, 0, 0)]).2⟩

end Create3Dance
